import Mathlib

/-!
Shallow embedding of the process-wide pluggable allocator from
`src/lib.rs` (module `mem`): two fixed-capacity downward bump allocators
(`ArenaAllocator`, `PoolAllocator`), a system passthrough with a byte
counter, a 1024-entry context stack with an atomic top index, the
dispatching `AllocatorManager`, and the `AllocationInfo` snapshot.

Machine integers (`usize`) are modelled as `Nat` with explicit wrapping
`% 2^64` where the Rust code wraps (atomic `fetch_add`/`fetch_sub`),
pointers as `Nat` addresses, and fallible allocation as `Option Nat`
(`none` = `null_mut()`).
-/

namespace AllocExp

/-- `usize` modulus, `2 ^ 64`, as a literal so that `omega` can use it. -/
def USIZE : Nat := 18446744073709551616

/-- `const ARENA_SIZE: usize = 128 * 1024;` -/
def ARENA_SIZE : Nat := 128 * 1024

/-- `const ARENA_MAX_SUPPORTED_ALIGN: usize = 4096;` -/
def ARENA_MAX_SUPPORTED_ALIGN : Nat := 4096

/-- `const POOL_SIZE: usize = 128 * 1024;` -/
def POOL_SIZE : Nat := 128 * 1024

/-- `const POOL_MAX_SUPPORTED_ALIGN: usize = 4096;` -/
def POOL_MAX_SUPPORTED_ALIGN : Nat := 4096

/-- `pub enum AllocationContext { Arena, Pool, System }` -/
inductive AllocationContext where
  | Arena
  | Pool
  | System
deriving DecidableEq, Repr

/-- `ArenaAllocator::alloc(&self, layout)`.  `base` is the address of the
backing buffer (`self.arena.get() as *mut u8`), `remaining` the current
value of the atomic counter; `size`/`align` come from the `Layout`.
Returns the produced pointer (`none` = `null_mut()`) together with the
value of `remaining` after the call; on either failure path
(`align > ARENA_MAX_SUPPORTED_ALIGN`, or `size > remaining` making
`fetch_update` return `Err`) the counter is left unchanged. -/
def ArenaAllocator.alloc (base remaining size align : Nat) : Option Nat × Nat :=
  let align_mask_to_round_down := (USIZE - 1) - (align - 1)
  if align > ARENA_MAX_SUPPORTED_ALIGN then (none, remaining)
  else if size > remaining then (none, remaining)
  else
    let r := (remaining - size) &&& align_mask_to_round_down
    (some (base + r), r)

/-- `PoolAllocator::alloc(&self, layout)`, textually identical to
`ArenaAllocator::alloc` over the pool buffer. -/
def PoolAllocator.alloc (base remaining size align : Nat) : Option Nat × Nat :=
  let align_mask_to_round_down := (USIZE - 1) - (align - 1)
  if align > POOL_MAX_SUPPORTED_ALIGN then (none, remaining)
  else if size > remaining then (none, remaining)
  else
    let r := (remaining - size) &&& align_mask_to_round_down
    (some (base + r), r)

/-- Serving a sequence of `(size, align)` requests through one bump backend,
threading the `remaining` counter exactly as repeated calls to
`ArenaAllocator::alloc` do; collects each call's returned pointer. -/
def ArenaAllocator.run (base remaining : Nat) :
    List (Nat × Nat) → List (Option Nat) × Nat
  | [] => ([], remaining)
  | (size, align) :: rest =>
    let step := ArenaAllocator.alloc base remaining size align
    let tail := ArenaAllocator.run base step.2 rest
    (step.1 :: tail.1, tail.2)

/-- Same for `PoolAllocator::alloc`. -/
def PoolAllocator.run (base remaining : Nat) :
    List (Nat × Nat) → List (Option Nat) × Nat
  | [] => ([], remaining)
  | (size, align) :: rest =>
    let step := PoolAllocator.alloc base remaining size align
    let tail := PoolAllocator.run base step.2 rest
    (step.1 :: tail.1, tail.2)

/-- Total of requested sizes plus the alignment padding each request consumes:
starting from counter `r`, a `(size, align)` request consumes
`size + (r - size) % align` bytes (the size, plus the rounding-down loss). -/
def consumeMeasure (r : Nat) : List (Nat × Nat) → Nat
  | [] => 0
  | (size, align) :: rest =>
    (size + (r - size) % align) +
      consumeMeasure ((r - size) - (r - size) % align) rest

/-- The `(offset, size)` interval each request of the sequence occupies
(relative to the buffer base), assuming every request succeeds: the offset is
the post-request counter value. -/
def idealIntervals (r : Nat) : List (Nat × Nat) → List (Nat × Nat)
  | [] => []
  | (size, align) :: rest =>
    let r' := (r - size) - (r - size) % align
    (r', size) :: idealIntervals r' rest

/-- `SystemAllocator::alloc`: the platform allocator's answer (`sysRet`,
`none` = null) is an environment input; on a non-null answer the `allocated`
counter is bumped by the requested size (`fetch_add`, wrapping `usize`). -/
def SystemAllocator.alloc (allocated size : Nat) (sysRet : Option Nat) :
    Option Nat × Nat :=
  match sysRet with
  | some p => (some p, (allocated + size) % USIZE)
  | none => (none, allocated)

/-- `SystemAllocator::dealloc`: delegates to the platform and subtracts the
size from the counter (`fetch_sub`, wrapping `usize`).  The dispatcher never
calls it. -/
def SystemAllocator.dealloc (allocated size : Nat) : Nat :=
  (allocated + (USIZE - size % USIZE)) % USIZE

/-- The mutable state of the `static ALLOCATOR: AllocatorManager`: the 1024
`AllocationContext` slots (modelled as a total function `Nat →
AllocationContext`; indices ≥ 1024 are out of the source array's bounds), the
atomic top index `ctx_ptr`, and the three backend counters.  The backing
byte buffers carry no information the claims depend on and are omitted. -/
structure AllocatorManager where
  ctx : Nat → AllocationContext
  ctx_ptr : Nat
  system_allocated : Nat
  arena_remaining : Nat
  pool_remaining : Nat

/-- The context the dispatcher reads: `self.ctx[self.ctx_ptr.load(Acquire)]`. -/
def AllocatorManager.current (st : AllocatorManager) : AllocationContext :=
  st.ctx st.ctx_ptr

/-- `GlobalAlloc::alloc` for `AllocatorManager`: dispatch on the current
context.  `arenaBase`/`poolBase` are the two buffer addresses; `sysRet` is
the platform allocator's answer, consulted only on the `System` path. -/
def AllocatorManager.alloc (arenaBase poolBase : Nat) (st : AllocatorManager)
    (size align : Nat) (sysRet : Option Nat) : Option Nat × AllocatorManager :=
  match st.ctx st.ctx_ptr with
  | AllocationContext.Arena =>
    let step := ArenaAllocator.alloc arenaBase st.arena_remaining size align
    (step.1, { st with arena_remaining := step.2 })
  | AllocationContext.Pool =>
    let step := PoolAllocator.alloc poolBase st.pool_remaining size align
    (step.1, { st with pool_remaining := step.2 })
  | AllocationContext.System =>
    let step := SystemAllocator.alloc st.system_allocated size sysRet
    (step.1, { st with system_allocated := step.2 })

/-- `GlobalAlloc::dealloc` for `AllocatorManager`: the body is empty. -/
def AllocatorManager.dealloc (st : AllocatorManager)
    (_ptr _size _align : Nat) : AllocatorManager :=
  st

/-- `push_allocator`: `fetch_add(1)` on the index (wrapping, returning the
previous value `idx`), then write the new context into slot `idx + 1`. -/
def AllocatorManager.push_allocator (st : AllocatorManager)
    (c : AllocationContext) : AllocatorManager :=
  let idx := st.ctx_ptr
  { st with
    ctx_ptr := (st.ctx_ptr + 1) % USIZE,
    ctx := fun n => if n = idx + 1 then c else st.ctx n }

/-- `push_allocator` with the array write's bounds check made explicit:
the source's `self.ctx[idx + 1] = ctx` is a bounds-checked write into
`[AllocationContext; 1024]`, so with `idx + 1 ≥ 1024` the push panics
(after the `fetch_add`), aborting the process — modelled as `none`.  In
bounds it behaves exactly as `push_allocator`. -/
def AllocatorManager.push_allocator_checked (st : AllocatorManager)
    (c : AllocationContext) : Option AllocatorManager :=
  if st.ctx_ptr + 1 < 1024 then some (st.push_allocator c) else none

/-- `pop_allocator`: `fetch_sub(1)` on the index (wrapping `usize`). -/
def AllocatorManager.pop_allocator (st : AllocatorManager) : AllocatorManager :=
  { st with ctx_ptr := (st.ctx_ptr + (USIZE - 1)) % USIZE }

/-- `pub struct AllocationInfo` (five byte counters). -/
structure AllocationInfo where
  system_allocated : Nat
  arena_allocated : Nat
  arena_remaining : Nat
  pool_allocated : Nat
  pool_remaining : Nat
deriving DecidableEq, Repr

/-- `AllocatorManager::info()`: load each counter and derive each
`*_allocated` as capacity minus the loaded `*_remaining`. -/
def AllocatorManager.info (st : AllocatorManager) : AllocationInfo :=
  { system_allocated := st.system_allocated,
    arena_allocated := ARENA_SIZE - st.arena_remaining,
    arena_remaining := st.arena_remaining,
    pool_allocated := POOL_SIZE - st.pool_remaining,
    pool_remaining := st.pool_remaining }

/-- The compile-time initial value of `static ALLOCATOR`: every slot
`System`, index 0, counters at 0 / full capacity. -/
def ALLOCATOR_INIT : AllocatorManager :=
  { ctx := fun _ => AllocationContext.System,
    ctx_ptr := 0,
    system_allocated := 0,
    arena_remaining := ARENA_SIZE,
    pool_remaining := POOL_SIZE }

/-- One observable operation on the installed allocator.  `Op.alloc` carries
the layout and the platform allocator's answer for the `System` path;
`Op.info` is the (read-only) diagnostic query. -/
inductive Op where
  | alloc (size align : Nat) (sysRet : Option Nat)
  | dealloc (ptr size align : Nat)
  | push (c : AllocationContext)
  | pop
  | info
deriving DecidableEq, Repr

/-- State transition of one operation. -/
def AllocatorManager.step (arenaBase poolBase : Nat) (st : AllocatorManager) :
    Op → AllocatorManager
  | Op.alloc size align sysRet =>
    (AllocatorManager.alloc arenaBase poolBase st size align sysRet).2
  | Op.dealloc ptr size align => AllocatorManager.dealloc st ptr size align
  | Op.push c => st.push_allocator c
  | Op.pop => st.pop_allocator
  | Op.info => st

/-- Run a sequence of operations. -/
def AllocatorManager.run (arenaBase poolBase : Nat) (st : AllocatorManager)
    (ops : List Op) : AllocatorManager :=
  ops.foldl (AllocatorManager.step arenaBase poolBase) st

/-- Number of pushes in an operation sequence. -/
def pushCount : List Op → Nat
  | [] => 0
  | Op.push _ :: rest => pushCount rest + 1
  | _ :: rest => pushCount rest

/-- Number of pops in an operation sequence. -/
def popCount : List Op → Nat
  | [] => 0
  | Op.pop :: rest => popCount rest + 1
  | _ :: rest => popCount rest

/-- Well-nested, capacity-bounded sequences: in every prefix the pops never
outnumber the pushes and the pushes exceed the pops by at most 1023. -/
def Balanced (ops : List Op) : Prop :=
  ∀ n, n ≤ ops.length →
    popCount (ops.take n) ≤ pushCount (ops.take n) ∧
      pushCount (ops.take n) ≤ popCount (ops.take n) + 1023

instance (ops : List Op) : Decidable (Balanced ops) := by
  unfold Balanced
  infer_instance

theorem USIZE_eq : USIZE = 2 ^ 64 := by norm_num [USIZE]

theorem pool_alloc_eq_arena_alloc (base remaining size align : Nat) :
    PoolAllocator.alloc base remaining size align =
      ArenaAllocator.alloc base remaining size align := rfl

/-- Key arithmetic fact behind the bump step: masking with
`2^w - 2^k` (the `w`-bit complement of `2^k - 1`) rounds a `w`-bit value
down to the nearest multiple of `2^k`. -/
theorem and_two_pow_mask (x k w : Nat) (hx : x < 2 ^ w) (hk : k ≤ w) :
    x &&& (2 ^ w - 2 ^ k) = x - x % 2 ^ k := by
  have hmask : 2 ^ w - 2 ^ k = (2 ^ (w - k) - 1) <<< k := by
    rw [Nat.shiftLeft_eq, Nat.sub_mul, one_mul, ← pow_add]
    congr 2
    omega
  have hpow : x / 2 ^ k * 2 ^ k + x % 2 ^ k = x := Nat.div_add_mod' x (2 ^ k)
  have hrhs : x - x % 2 ^ k = (x >>> k) <<< k := by
    rw [Nat.shiftLeft_eq, Nat.shiftRight_eq_div_pow]
    omega
  rw [hmask, hrhs]
  apply Nat.eq_of_testBit_eq
  intro i
  rw [Nat.testBit_land, Nat.testBit_shiftLeft, Nat.testBit_shiftLeft,
    Nat.testBit_shiftRight, Nat.testBit_two_pow_sub_one]
  by_cases hik : k ≤ i
  · by_cases hiw : i < w
    · have h1 : i - k < w - k := by omega
      have h2 : k + (i - k) = i := by omega
      simp [hik, h1, h2]
    · have h1 : ¬ (i - k < w - k) := by omega
      have h2 : k + (i - k) = i := by omega
      have hxw : x < 2 ^ i :=
        lt_of_lt_of_le hx (Nat.pow_le_pow_right (by omega) (by omega))
      simp [h1, h2, Nat.testBit_lt_two_pow hxw]
  · simp [hik]

/-- On the success path (`align ≤ 4096` a power of two, `size ≤ remaining`),
the bump step returns pointer `base + r'` and counter `r'` where
`r' = (remaining - size) & !(align - 1)` — arithmetically, `remaining - size`
rounded down to the nearest multiple of `align`. -/
theorem ArenaAllocator.alloc_success (base remaining size align k : Nat)
    (hrem : remaining < USIZE) (hpow : align = 2 ^ k) (hle : align ≤ 4096)
    (hsz : size ≤ remaining) :
    ArenaAllocator.alloc base remaining size align =
      (some (base + ((remaining - size) - (remaining - size) % align)),
        (remaining - size) - (remaining - size) % align) := by
  have hk12 : k ≤ 12 := by
    by_contra hgt
    have : (2:Nat) ^ 13 ≤ 2 ^ k := Nat.pow_le_pow_right (by omega) (by omega)
    omega
  have hpos : 0 < align := by
    subst hpow; exact Nat.pos_pow_of_pos k (by omega)
  have hmask : (USIZE - 1) - (align - 1) = 2 ^ 64 - 2 ^ k := by
    rw [USIZE_eq, hpow]
    have : (2:Nat) ^ k ≤ 2 ^ 64 := Nat.pow_le_pow_right (by omega) (by omega)
    omega
  have hland : (remaining - size) &&& ((USIZE - 1) - (align - 1)) =
      (remaining - size) - (remaining - size) % align := by
    rw [hmask, hpow]
    exact and_two_pow_mask _ k 64 (by rw [← USIZE_eq]; omega) (by omega)
  unfold ArenaAllocator.alloc
  rw [if_neg (by unfold ARENA_MAX_SUPPORTED_ALIGN; omega),
    if_neg (by omega)]
  simp only [hland]

theorem pool_alloc_success (base remaining size align k : Nat)
    (hrem : remaining < USIZE) (hpow : align = 2 ^ k) (hle : align ≤ 4096)
    (hsz : size ≤ remaining) :
    PoolAllocator.alloc base remaining size align =
      (some (base + ((remaining - size) - (remaining - size) % align)),
        (remaining - size) - (remaining - size) % align) := by
  rw [pool_alloc_eq_arena_alloc]
  exact ArenaAllocator.alloc_success base remaining size align k hrem hpow hle hsz

/-- On either failure path the counter is unchanged and `null` is returned. -/
theorem ArenaAllocator.alloc_fail (base remaining size align : Nat)
    (h : 4096 < align ∨ remaining < size) :
    ArenaAllocator.alloc base remaining size align = (none, remaining) := by
  unfold ArenaAllocator.alloc
  rcases h with h | h
  · rw [if_pos (by unfold ARENA_MAX_SUPPORTED_ALIGN; omega)]
  · by_cases ha : align > ARENA_MAX_SUPPORTED_ALIGN
    · rw [if_pos ha]
    · rw [if_neg ha, if_pos (by omega)]

/-- The bump step never increases the counter, success or not. -/
theorem ArenaAllocator.alloc_remaining_le (base remaining size align : Nat) :
    (ArenaAllocator.alloc base remaining size align).2 ≤ remaining := by
  unfold ArenaAllocator.alloc
  by_cases ha : align > ARENA_MAX_SUPPORTED_ALIGN
  · rw [if_pos ha]
  · rw [if_neg ha]
    by_cases hs : size > remaining
    · rw [if_pos hs]
    · rw [if_neg hs]
      simp only
      exact le_trans Nat.and_le_left (by omega)

theorem pool_run_eq_arena_run (base remaining : Nat) (reqs : List (Nat × Nat)) :
    PoolAllocator.run base remaining reqs = ArenaAllocator.run base remaining reqs := by
  induction reqs generalizing remaining with
  | nil => rfl
  | cons hd tl ih =>
    obtain ⟨size, align⟩ := hd
    simp only [PoolAllocator.run, ArenaAllocator.run, pool_alloc_eq_arena_alloc, ih]

theorem consumeMeasure_head_le {r size align : Nat} {rest : List (Nat × Nat)}
    (h : consumeMeasure r ((size, align) :: rest) ≤ r) :
    size ≤ r ∧
      consumeMeasure ((r - size) - (r - size) % align) rest ≤
        (r - size) - (r - size) % align := by
  have hmod : (r - size) % align ≤ r - size := Nat.mod_le _ _
  simp only [consumeMeasure] at h
  omega

/-- Under the capacity-budget hypothesis, every interval of the ideal trace
fits under the initial counter value. -/
theorem idealIntervals_bound :
    ∀ (reqs : List (Nat × Nat)) (r : Nat), consumeMeasure r reqs ≤ r →
      ∀ p ∈ idealIntervals r reqs, p.1 + p.2 ≤ r := by
  intro reqs
  induction reqs with
  | nil => intro r _ p hp; simp [idealIntervals] at hp
  | cons hd tl ih =>
    obtain ⟨size, align⟩ := hd
    intro r hsum p hp
    obtain ⟨hsz, htl⟩ := consumeMeasure_head_le hsum
    have hmod : (r - size) % align ≤ r - size := Nat.mod_le _ _
    simp only [idealIntervals, List.mem_cons] at hp
    rcases hp with hp | hp
    · subst hp; simp only; omega
    · have := ih _ htl p hp
      omega

/-- The ideal trace is sorted downward: every later interval ends at or below
every earlier interval's start. -/
theorem idealIntervals_sorted :
    ∀ (reqs : List (Nat × Nat)) (r : Nat), consumeMeasure r reqs ≤ r →
      List.Pairwise (fun p q : Nat × Nat => q.1 + q.2 ≤ p.1)
        (idealIntervals r reqs) := by
  intro reqs
  induction reqs with
  | nil => intro r _; simp [idealIntervals]
  | cons hd tl ih =>
    obtain ⟨size, align⟩ := hd
    intro r hsum
    obtain ⟨hsz, htl⟩ := consumeMeasure_head_le hsum
    simp only [idealIntervals, List.pairwise_cons]
    exact ⟨fun q hq => idealIntervals_bound tl _ htl q hq, ih _ htl⟩

/-- Under the alignment and capacity-budget hypotheses, the real run matches
the ideal trace: every request succeeds, each returning the pointer
`base + offset` of its ideal interval, and the final counter is the initial
one minus the total consumption. -/
theorem ArenaAllocator.run_spec :
    ∀ (reqs : List (Nat × Nat)) (base r : Nat), r < USIZE →
      (∀ p ∈ reqs, (∃ k, p.2 = 2 ^ k) ∧ p.2 ≤ 4096) →
      consumeMeasure r reqs ≤ r →
      ArenaAllocator.run base r reqs =
        ((idealIntervals r reqs).map (fun p => some (base + p.1)),
          r - consumeMeasure r reqs) := by
  intro reqs
  induction reqs with
  | nil => intro base r _ _ _; simp [ArenaAllocator.run, idealIntervals, consumeMeasure]
  | cons hd tl ih =>
    obtain ⟨size, align⟩ := hd
    intro base r hr hal hsum
    obtain ⟨⟨k, hk⟩, hle⟩ := hal (size, align) (List.mem_cons_self _ _)
    obtain ⟨hsz, htl⟩ := consumeMeasure_head_le hsum
    have hmod : (r - size) % align ≤ r - size := Nat.mod_le _ _
    have hstep := ArenaAllocator.alloc_success base r size align k hr hk hle hsz
    have hr' : (r - size) - (r - size) % align < USIZE := by omega
    have htail := ih base _ hr' (fun p hp => hal p (List.mem_cons_of_mem _ hp)) htl
    simp only [ArenaAllocator.run, hstep, htail, idealIntervals, List.map_cons,
      consumeMeasure]
    rw [Prod.mk.injEq]
    exact ⟨rfl, by omega⟩

theorem wrap_sub_one {n : Nat} (h1 : 0 < n) (h2 : n < USIZE) :
    (n + (USIZE - 1)) % USIZE = n - 1 := by
  have he : n + (USIZE - 1) = (n - 1) + USIZE := by
    simp only [USIZE] at *
    omega
  rw [he, Nat.add_mod_right]
  exact Nat.mod_eq_of_lt (by simp only [USIZE] at *; omega)

theorem pool_alloc_remaining_mono (base remaining size align : Nat) :
    (PoolAllocator.alloc base remaining size align).2 ≤ remaining := by
  rw [pool_alloc_eq_arena_alloc]
  exact ArenaAllocator.alloc_remaining_le base remaining size align

theorem alloc_preserves_ctx (ab pb : Nat) (st : AllocatorManager)
    (size align : Nat) (sysRet : Option Nat) :
    ((AllocatorManager.alloc ab pb st size align sysRet).2).ctx = st.ctx ∧
      ((AllocatorManager.alloc ab pb st size align sysRet).2).ctx_ptr = st.ctx_ptr := by
  unfold AllocatorManager.alloc
  cases hc : st.ctx st.ctx_ptr <;> simp [hc]

theorem step_alloc_eq (ab pb : Nat) (st : AllocatorManager)
    (size align : Nat) (sysRet : Option Nat) :
    AllocatorManager.step ab pb st (Op.alloc size align sysRet) =
      (AllocatorManager.alloc ab pb st size align sysRet).2 := rfl

theorem step_dealloc_eq (ab pb : Nat) (st : AllocatorManager)
    (ptr size align : Nat) :
    AllocatorManager.step ab pb st (Op.dealloc ptr size align) = st := rfl

theorem step_push_eq (ab pb : Nat) (st : AllocatorManager)
    (c : AllocationContext) :
    AllocatorManager.step ab pb st (Op.push c) = st.push_allocator c := rfl

theorem step_pop_eq (ab pb : Nat) (st : AllocatorManager) :
    AllocatorManager.step ab pb st Op.pop = st.pop_allocator := rfl

theorem step_info_eq (ab pb : Nat) (st : AllocatorManager) :
    AllocatorManager.step ab pb st Op.info = st := rfl

theorem run_nil (ab pb : Nat) (st : AllocatorManager) :
    AllocatorManager.run ab pb st [] = st := rfl

theorem run_cons (ab pb : Nat) (st : AllocatorManager) (op : Op) (ops : List Op) :
    AllocatorManager.run ab pb st (op :: ops) =
      AllocatorManager.run ab pb (AllocatorManager.step ab pb st op) ops := rfl

theorem pop_allocator_proj (st : AllocatorManager) :
    st.pop_allocator.ctx = st.ctx ∧
      st.pop_allocator.ctx_ptr = (st.ctx_ptr + (USIZE - 1)) % USIZE ∧
      st.pop_allocator.system_allocated = st.system_allocated ∧
      st.pop_allocator.arena_remaining = st.arena_remaining ∧
      st.pop_allocator.pool_remaining = st.pool_remaining := by
  unfold AllocatorManager.pop_allocator
  exact ⟨rfl, rfl, rfl, rfl, rfl⟩

theorem push_allocator_proj (st : AllocatorManager) (c : AllocationContext) :
    (st.push_allocator c).ctx_ptr = (st.ctx_ptr + 1) % USIZE ∧
      (st.push_allocator c).ctx =
        (fun n => if n = st.ctx_ptr + 1 then c else st.ctx n) ∧
      (st.push_allocator c).system_allocated = st.system_allocated ∧
      (st.push_allocator c).arena_remaining = st.arena_remaining ∧
      (st.push_allocator c).pool_remaining = st.pool_remaining := by
  unfold AllocatorManager.push_allocator
  exact ⟨rfl, rfl, rfl, rfl, rfl⟩

theorem alloc_state_arena_remaining_le (ab pb : Nat) (st : AllocatorManager)
    (size align : Nat) (sysRet : Option Nat) :
    ((AllocatorManager.alloc ab pb st size align sysRet).2).arena_remaining ≤
      st.arena_remaining := by
  unfold AllocatorManager.alloc
  cases hc : st.ctx st.ctx_ptr <;> simp [hc]
  exact ArenaAllocator.alloc_remaining_le ab st.arena_remaining size align

theorem alloc_state_pool_remaining_le (ab pb : Nat) (st : AllocatorManager)
    (size align : Nat) (sysRet : Option Nat) :
    ((AllocatorManager.alloc ab pb st size align sysRet).2).pool_remaining ≤
      st.pool_remaining := by
  unfold AllocatorManager.alloc
  cases hc : st.ctx st.ctx_ptr <;> simp [hc]
  exact pool_alloc_remaining_mono pb st.pool_remaining size align

theorem step_arena_remaining_le (ab pb : Nat) (st : AllocatorManager) (op : Op) :
    (AllocatorManager.step ab pb st op).arena_remaining ≤ st.arena_remaining := by
  cases op with
  | alloc size align sysRet =>
    rw [step_alloc_eq]
    exact alloc_state_arena_remaining_le ab pb st size align sysRet
  | dealloc ptr size align => rw [step_dealloc_eq]
  | push c => rw [step_push_eq, (push_allocator_proj st c).2.2.2.1]
  | pop => rw [step_pop_eq, (pop_allocator_proj st).2.2.2.1]
  | info => rw [step_info_eq]

theorem step_pool_remaining_le (ab pb : Nat) (st : AllocatorManager) (op : Op) :
    (AllocatorManager.step ab pb st op).pool_remaining ≤ st.pool_remaining := by
  cases op with
  | alloc size align sysRet =>
    rw [step_alloc_eq]
    exact alloc_state_pool_remaining_le ab pb st size align sysRet
  | dealloc ptr size align => rw [step_dealloc_eq]
  | push c => rw [step_push_eq, (push_allocator_proj st c).2.2.2.2]
  | pop => rw [step_pop_eq, (pop_allocator_proj st).2.2.2.2]
  | info => rw [step_info_eq]

theorem run_arena_remaining_le (ab pb : Nat) (ops : List Op) :
    ∀ st : AllocatorManager,
      (AllocatorManager.run ab pb st ops).arena_remaining ≤ st.arena_remaining := by
  induction ops with
  | nil => intro st; rw [run_nil]
  | cons op rest ih =>
    intro st
    rw [run_cons]
    exact le_trans (ih (AllocatorManager.step ab pb st op))
      (step_arena_remaining_le ab pb st op)

theorem run_pool_remaining_le (ab pb : Nat) (ops : List Op) :
    ∀ st : AllocatorManager,
      (AllocatorManager.run ab pb st ops).pool_remaining ≤ st.pool_remaining := by
  induction ops with
  | nil => intro st; rw [run_nil]
  | cons op rest ih =>
    intro st
    rw [run_cons]
    exact le_trans (ih (AllocatorManager.step ab pb st op))
      (step_pool_remaining_le ab pb st op)

theorem pushCount_append (l1 l2 : List Op) :
    pushCount (l1 ++ l2) = pushCount l1 + pushCount l2 := by
  induction l1 with
  | nil => simp [pushCount]
  | cons op rest ih =>
    cases op <;> simp [pushCount, ih] <;> omega

theorem popCount_append (l1 l2 : List Op) :
    popCount (l1 ++ l2) = popCount l1 + popCount l2 := by
  induction l1 with
  | nil => simp [popCount]
  | cons op rest ih =>
    cases op <;> simp [popCount, ih] <;> omega

/-- Along a well-nested, capacity-bounded sequence the top index moves
exactly by pushes minus pops (the wrapping `fetch_add`/`fetch_sub` never
actually wrap). -/
theorem run_ctx_ptr_balanced :
    ∀ (ops : List Op) (ab pb : Nat) (st : AllocatorManager),
      st.ctx_ptr ≤ 1023 →
      (∀ n, n ≤ ops.length →
        popCount (ops.take n) ≤ st.ctx_ptr + pushCount (ops.take n) ∧
          st.ctx_ptr + pushCount (ops.take n) ≤ popCount (ops.take n) + 1023) →
      (AllocatorManager.run ab pb st ops).ctx_ptr =
        st.ctx_ptr + pushCount ops - popCount ops := by
  intro ops
  induction ops with
  | nil =>
    intro ab pb st hst hbal
    rw [run_nil]
    simp [pushCount, popCount]
  | cons op rest ih =>
    intro ab pb st hst hbal
    have h1 := hbal 1 (by simp)
    simp only [List.take_succ_cons, List.take_zero] at h1
    have hfull := hbal (op :: rest).length (le_refl _)
    rw [List.take_length] at hfull
    rw [run_cons]
    cases op with
    | push c =>
      simp only [pushCount, popCount] at h1 hfull ⊢
      have hlt : st.ctx_ptr + 1 < USIZE := by simp only [USIZE]; omega
      have hptr : (st.push_allocator c).ctx_ptr = st.ctx_ptr + 1 := by
        rw [(push_allocator_proj st c).1]
        exact Nat.mod_eq_of_lt hlt
      rw [step_push_eq]
      rw [ih ab pb (st.push_allocator c)
        (by rw [hptr]; omega)
        (by
          intro n hn
          have hb := hbal (n + 1) (by simpa using hn)
          simp only [List.take_succ_cons, pushCount, popCount] at hb
          rw [hptr]
          omega)]
      rw [hptr]
      omega
    | pop =>
      simp only [pushCount, popCount] at h1 hfull ⊢
      have hpos : 0 < st.ctx_ptr := by omega
      have hptr : st.pop_allocator.ctx_ptr = st.ctx_ptr - 1 := by
        rw [(pop_allocator_proj st).2.1]
        exact wrap_sub_one hpos (by simp only [USIZE]; omega)
      rw [step_pop_eq]
      rw [ih ab pb st.pop_allocator
        (by rw [hptr]; omega)
        (by
          intro n hn
          have hb := hbal (n + 1) (by simpa using hn)
          simp only [List.take_succ_cons, pushCount, popCount] at hb
          rw [hptr]
          omega)]
      rw [hptr]
      omega
    | alloc size align sysRet =>
      simp only [pushCount, popCount] at h1 hfull ⊢
      have hptr := (alloc_preserves_ctx ab pb st size align sysRet).2
      rw [step_alloc_eq]
      rw [ih ab pb (AllocatorManager.alloc ab pb st size align sysRet).2
        (by rw [hptr]; exact hst)
        (by
          intro n hn
          have hb := hbal (n + 1) (by simpa using hn)
          simp only [List.take_succ_cons, pushCount, popCount] at hb
          rw [hptr]
          omega)]
      rw [hptr]
    | dealloc ptr size align =>
      simp only [pushCount, popCount] at h1 hfull ⊢
      rw [step_dealloc_eq]
      rw [ih ab pb st hst
        (by
          intro n hn
          have hb := hbal (n + 1) (by simpa using hn)
          simp only [List.take_succ_cons, pushCount, popCount] at hb
          omega)]
    | info =>
      simp only [pushCount, popCount] at h1 hfull ⊢
      rw [step_info_eq]
      rw [ih ab pb st hst
        (by
          intro n hn
          have hb := hbal (n + 1) (by simpa using hn)
          simp only [List.take_succ_cons, pushCount, popCount] at hb
          omega)]

/-- A successful bump allocation returns a pointer divisible by the
(power-of-two, ≤ 4096) requested alignment whenever the buffer base is
4096-aligned. -/
theorem ArenaAllocator.alloc_aligned (base r s a k : Nat) (hpow : a = 2 ^ k)
    (hle : a ≤ 4096) (hb : base % 4096 = 0) (hr : r < USIZE) :
    ∀ ptr, (ArenaAllocator.alloc base r s a).1 = some ptr → ptr % a = 0 := by
  intro ptr h
  by_cases hs : s ≤ r
  · rw [ArenaAllocator.alloc_success base r s a k hr hpow hle hs] at h
    simp only [Option.some.injEq] at h
    subst h
    have hk12 : k ≤ 12 := by
      by_contra hgt
      have : (2:Nat) ^ 13 ≤ 2 ^ k := Nat.pow_le_pow_right (by omega) (by omega)
      omega
    have hdvd4096 : a ∣ 4096 := by
      rw [hpow]
      have hk' : k + (12 - k) = 12 := by omega
      refine ⟨2 ^ (12 - k), ?_⟩
      rw [← pow_add, hk']
      norm_num
    have hdvd_base : a ∣ base :=
      dvd_trans hdvd4096 (Nat.dvd_of_mod_eq_zero hb)
    have hdm : a * ((r - s) / a) + (r - s) % a = r - s := Nat.div_add_mod (r - s) a
    have hdvd_new : a ∣ (r - s) - (r - s) % a := by
      have he : (r - s) - (r - s) % a = a * ((r - s) / a) := by omega
      rw [he]
      exact dvd_mul_right a _
    exact Nat.mod_eq_zero_of_dvd (Nat.dvd_add hdvd_base hdvd_new)
  · rw [ArenaAllocator.alloc_fail base r s a (Or.inr (by omega))] at h
    simp at h

theorem pool_alloc_aligned (base r s a k : Nat) (hpow : a = 2 ^ k)
    (hle : a ≤ 4096) (hb : base % 4096 = 0) (hr : r < USIZE) :
    ∀ ptr, (PoolAllocator.alloc base r s a).1 = some ptr → ptr % a = 0 := by
  rw [pool_alloc_eq_arena_alloc]
  exact ArenaAllocator.alloc_aligned base r s a k hpow hle hb hr

/-- C2: for a bump allocation (Arena or Pool) with size `s ≤ r` and
power-of-two alignment `a ≤ 4096` on counter `r`, the masked value
`(r - s) & !(a - 1)` equals `r - s` rounded down to a multiple of `a`; the
call succeeds, stores exactly that value as the new counter, returns
pointer `base + new_remaining`, and the counter moves downward
(`new_remaining ≤ r`). -/
theorem claim_C2 (base r s a k : Nat) (hr : r < USIZE) (hpow : a = 2 ^ k)
    (hle : a ≤ 4096) (hs : s ≤ r) :
    ((r - s) &&& ((USIZE - 1) - (a - 1))) = (r - s) - (r - s) % a ∧
    ArenaAllocator.alloc base r s a =
      (some (base + ((r - s) - (r - s) % a)), (r - s) - (r - s) % a) ∧
    PoolAllocator.alloc base r s a =
      (some (base + ((r - s) - (r - s) % a)), (r - s) - (r - s) % a) ∧
    (r - s) - (r - s) % a ≤ r := by
  have hk12 : k ≤ 12 := by
    by_contra hgt
    have : (2:Nat) ^ 13 ≤ 2 ^ k := Nat.pow_le_pow_right (by omega) (by omega)
    omega
  have hmask : (USIZE - 1) - (a - 1) = 2 ^ 64 - 2 ^ k := by
    rw [USIZE_eq, hpow]
    have h1 : (1:Nat) ≤ 2 ^ k := Nat.one_le_two_pow
    have h2 : (2:Nat) ^ k ≤ 2 ^ 64 := Nat.pow_le_pow_right (by omega) (by omega)
    generalize (2:Nat) ^ k = t at h1 h2 ⊢
    omega
  refine ⟨?_, ArenaAllocator.alloc_success base r s a k hr hpow hle hs,
    pool_alloc_success base r s a k hr hpow hle hs, ?_⟩
  · rw [hmask, hpow]
    exact and_two_pow_mask (r - s) k 64 (by rw [← USIZE_eq]; omega) (by omega)
  · have := Nat.mod_le (r - s) a
    omega

/-- C2 witness: a concrete instance (`r = 100`, `s = 9`, `a = 8`):
`new_remaining = 88` and the pointer is `base + 88`. -/
theorem claim_C2_witness :
    (100 < USIZE ∧ (8:Nat) = 2 ^ 3 ∧ (8:Nat) ≤ 4096 ∧ (9:Nat) ≤ 100) ∧
    ArenaAllocator.alloc 4096 100 9 8 = (some (4096 + 88), 88) ∧
    PoolAllocator.alloc 4096 100 9 8 = (some (4096 + 88), 88) ∧
    (88:Nat) ≤ 100 := by
  have h := claim_C2 4096 100 9 8 3 (by simp only [USIZE]; omega) (by norm_num)
    (by norm_num) (by norm_num)
  refine ⟨⟨by simp only [USIZE]; omega, by norm_num, by norm_num, by norm_num⟩,
    ?_, ?_, by norm_num⟩
  · have := h.2.1
    norm_num at this ⊢
    exact this
  · have := h.2.2.1
    norm_num at this ⊢
    exact this

/-- C3: a request whose size exceeds the current counter fails (null) and
leaves the counter unchanged, for both backends. -/
theorem claim_C3 (base r s a : Nat) (h : r < s) :
    ArenaAllocator.alloc base r s a = (none, r) ∧
    PoolAllocator.alloc base r s a = (none, r) := by
  refine ⟨ArenaAllocator.alloc_fail base r s a (Or.inr h), ?_⟩
  rw [pool_alloc_eq_arena_alloc]
  exact ArenaAllocator.alloc_fail base r s a (Or.inr h)

/-- C3 witness: size 131073 against a full 131072 counter fails with the
counter unchanged. -/
theorem claim_C3_witness :
    (131072:Nat) < 131073 ∧
    ArenaAllocator.alloc 0 131072 131073 8 = (none, 131072) ∧
    PoolAllocator.alloc 0 131072 131073 8 = (none, 131072) := by
  refine ⟨by norm_num, ?_, ?_⟩
  · exact (claim_C3 0 131072 131073 8 (by norm_num)).1
  · exact (claim_C3 0 131072 131073 8 (by norm_num)).2

/-- C4: a request whose alignment exceeds 4096 fails (null) regardless of
size and remaining capacity, leaving the counter unchanged, for both
backends. -/
theorem claim_C4 (base r s a : Nat) (h : 4096 < a) :
    ArenaAllocator.alloc base r s a = (none, r) ∧
    PoolAllocator.alloc base r s a = (none, r) := by
  refine ⟨ArenaAllocator.alloc_fail base r s a (Or.inl h), ?_⟩
  rw [pool_alloc_eq_arena_alloc]
  exact ArenaAllocator.alloc_fail base r s a (Or.inl h)

/-- C4 witness: alignment 8192 fails even for a 1-byte request against a
full counter. -/
theorem claim_C4_witness :
    (4096:Nat) < 8192 ∧
    ArenaAllocator.alloc 0 131072 1 8192 = (none, 131072) ∧
    PoolAllocator.alloc 0 131072 1 8192 = (none, 131072) := by
  refine ⟨by norm_num, ?_, ?_⟩
  · exact (claim_C4 0 131072 1 8192 (by norm_num)).1
  · exact (claim_C4 0 131072 1 8192 (by norm_num)).2

/-- C5: with a 4096-aligned buffer base, every non-null pointer returned by
a bump allocation with power-of-two alignment `a ≤ 4096` is divisible by
`a`, for both backends. -/
theorem claim_C5 (abase pbase r s a k : Nat) (hpow : a = 2 ^ k)
    (hle : a ≤ 4096) (hab : abase % 4096 = 0) (hpb : pbase % 4096 = 0)
    (hr : r < USIZE) :
    (∀ ptr, (ArenaAllocator.alloc abase r s a).1 = some ptr → ptr % a = 0) ∧
    (∀ ptr, (PoolAllocator.alloc pbase r s a).1 = some ptr → ptr % a = 0) :=
  ⟨ArenaAllocator.alloc_aligned abase r s a k hpow hle hab hr,
    pool_alloc_aligned pbase r s a k hpow hle hpb hr⟩

/-- C5 witness: from a 4096-aligned base, a size-9 request with alignment 8
returns pointer 8280, which is 8-aligned. -/
theorem claim_C5_witness :
    ((8:Nat) = 2 ^ 3 ∧ (8:Nat) ≤ 4096 ∧ (4096:Nat) % 4096 = 0 ∧
      (8192:Nat) % 4096 = 0 ∧ 100 < USIZE) ∧
    (4184:Nat) % 8 = 0 ∧ (8280:Nat) % 8 = 0 := by
  have h := claim_C5 4096 8192 100 9 8 3 (by norm_num) (by norm_num)
    (by norm_num) (by norm_num) (by simp only [USIZE]; omega)
  refine ⟨⟨by norm_num, by norm_num, by norm_num, by norm_num,
    by simp only [USIZE]; omega⟩, ?_, ?_⟩
  · exact h.1 4184 (by decide)
  · exact h.2 8280 (by decide)

/-- C1: for any request sequence with power-of-two alignments ≤ 4096 whose
sizes plus per-request alignment padding total at most the 131072-byte
capacity, serving it on either bump backend makes every request succeed
with pointer `base + offset` for its ideal interval `(offset, size)`; every
such interval lies inside the backend buffer, and the address ranges of
distinct allocations are pairwise disjoint. -/
theorem claim_C1 (reqs : List (Nat × Nat)) (abase pbase : Nat)
    (hal : ∀ p ∈ reqs, (∃ k : Nat, p.2 = 2 ^ k) ∧ p.2 ≤ 4096)
    (hsum : consumeMeasure 131072 reqs ≤ 131072) :
    ((ArenaAllocator.run abase ARENA_SIZE reqs).1 =
        (idealIntervals ARENA_SIZE reqs).map (fun p => some (abase + p.1)) ∧
      (∀ res ∈ (ArenaAllocator.run abase ARENA_SIZE reqs).1, res.isSome = true) ∧
      (∀ p ∈ idealIntervals ARENA_SIZE reqs,
        abase ≤ abase + p.1 ∧ abase + p.1 + p.2 ≤ abase + ARENA_SIZE) ∧
      List.Pairwise
        (fun p q : Nat × Nat =>
          abase + p.1 + p.2 ≤ abase + q.1 ∨ abase + q.1 + q.2 ≤ abase + p.1)
        (idealIntervals ARENA_SIZE reqs)) ∧
    ((PoolAllocator.run pbase POOL_SIZE reqs).1 =
        (idealIntervals POOL_SIZE reqs).map (fun p => some (pbase + p.1)) ∧
      (∀ res ∈ (PoolAllocator.run pbase POOL_SIZE reqs).1, res.isSome = true) ∧
      (∀ p ∈ idealIntervals POOL_SIZE reqs,
        pbase ≤ pbase + p.1 ∧ pbase + p.1 + p.2 ≤ pbase + POOL_SIZE) ∧
      List.Pairwise
        (fun p q : Nat × Nat =>
          pbase + p.1 + p.2 ≤ pbase + q.1 ∨ pbase + q.1 + q.2 ≤ pbase + p.1)
        (idealIntervals POOL_SIZE reqs)) := by
  have hA : ARENA_SIZE = 131072 := by norm_num [ARENA_SIZE]
  have hP : POOL_SIZE = 131072 := by norm_num [POOL_SIZE]
  have hsumA : consumeMeasure ARENA_SIZE reqs ≤ ARENA_SIZE := by rw [hA]; exact hsum
  have hrA : ARENA_SIZE < USIZE := by simp only [USIZE]; rw [hA]; omega
  have key : ∀ base : Nat,
      (ArenaAllocator.run base ARENA_SIZE reqs).1 =
          (idealIntervals ARENA_SIZE reqs).map (fun p => some (base + p.1)) ∧
        (∀ res ∈ (ArenaAllocator.run base ARENA_SIZE reqs).1, res.isSome = true) ∧
        (∀ p ∈ idealIntervals ARENA_SIZE reqs,
          base ≤ base + p.1 ∧ base + p.1 + p.2 ≤ base + ARENA_SIZE) ∧
        List.Pairwise
          (fun p q : Nat × Nat =>
            base + p.1 + p.2 ≤ base + q.1 ∨ base + q.1 + q.2 ≤ base + p.1)
          (idealIntervals ARENA_SIZE reqs) := by
    intro base
    have hrun := ArenaAllocator.run_spec reqs base ARENA_SIZE hrA hal hsumA
    refine ⟨by rw [hrun], ?_, ?_, ?_⟩
    · intro res hres
      rw [hrun] at hres
      simp only [List.mem_map] at hres
      obtain ⟨p, _, hp⟩ := hres
      rw [← hp]
      rfl
    · intro p hp
      have := idealIntervals_bound reqs ARENA_SIZE hsumA p hp
      omega
    · refine List.Pairwise.imp ?_ (idealIntervals_sorted reqs ARENA_SIZE hsumA)
      intro p q h
      omega
  refine ⟨key abase, ?_⟩
  have hkey := key pbase
  rw [hA, ← hP] at hkey
  rw [pool_run_eq_arena_run]
  rw [hP, ← hA]
  exact hkey

/-- C1 witness: two requests `(16, align 8)` and `(40, align 8)` on a full
backend; both succeed at offsets 131056 and 131016, inside the buffer and
disjoint. -/
theorem claim_C1_witness :
    (∀ p ∈ ([(16, 8), (40, 8)] : List (Nat × Nat)),
      (∃ k : Nat, p.2 = 2 ^ k) ∧ p.2 ≤ 4096) ∧
    consumeMeasure 131072 [(16, 8), (40, 8)] ≤ 131072 ∧
    ((ArenaAllocator.run 0 ARENA_SIZE [(16, 8), (40, 8)]).1 =
        (idealIntervals ARENA_SIZE [(16, 8), (40, 8)]).map
          (fun p => some (0 + p.1)) ∧
      (∀ res ∈ (ArenaAllocator.run 0 ARENA_SIZE [(16, 8), (40, 8)]).1,
        res.isSome = true) ∧
      (∀ p ∈ idealIntervals ARENA_SIZE [(16, 8), (40, 8)],
        0 ≤ 0 + p.1 ∧ 0 + p.1 + p.2 ≤ 0 + ARENA_SIZE) ∧
      List.Pairwise
        (fun p q : Nat × Nat =>
          0 + p.1 + p.2 ≤ 0 + q.1 ∨ 0 + q.1 + q.2 ≤ 0 + p.1)
        (idealIntervals ARENA_SIZE [(16, 8), (40, 8)])) := by
  have hal : ∀ p ∈ ([(16, 8), (40, 8)] : List (Nat × Nat)),
      (∃ k : Nat, p.2 = 2 ^ k) ∧ p.2 ≤ 4096 := by
    intro p hp
    simp only [List.mem_cons, List.not_mem_nil, or_false] at hp
    rcases hp with hp | hp
    all_goals subst hp
    all_goals exact ⟨⟨3, by norm_num⟩, by norm_num⟩
  exact ⟨hal, by decide,
    (claim_C1 [(16, 8), (40, 8)] 0 0 hal (by decide)).1⟩

theorem current_eq (st : AllocatorManager) :
    st.current = st.ctx st.ctx_ptr := rfl

/-- C6 counterexample: the claim fails as stated.  The state with top
index 1023 is within bounds, yet `push_allocator` there performs the slot
write `self.ctx[1024]` — out of bounds for the 1024-entry array, a panic
(spec: stack overflow is undefined behavior in the source) — so the
process aborts and `push; pop` restores nothing. -/
theorem claim_C6_counterexample :
    ({ ALLOCATOR_INIT with ctx_ptr := 1023 } : AllocatorManager).ctx_ptr <
        1024 ∧
      ({ ALLOCATOR_INIT with
          ctx_ptr := 1023 } : AllocatorManager).push_allocator_checked
          AllocationContext.Arena = none := by
  constructor
  · decide
  · unfold AllocatorManager.push_allocator_checked
    rw [if_neg (by decide)]

/-- C6 (amended): `push C` then `pop` restores both the top index and the
current context from every stack state in which the push's slot write
(`index + 1`) stays within the 1024-entry array (`ctx_ptr + 1 < 1024`;
for the nested Arena-then-Pool pushes popped twice, `ctx_ptr + 2 < 1024`):
there the bounds-checked push does not panic and agrees with the unchecked
model, and the round trip restores the pre-push (pre-nesting) top index
and active context.  At `ctx_ptr = 1023` the push itself panics. -/
theorem claim_C6 (st : AllocatorManager) (c : AllocationContext) :
    (st.ctx_ptr + 1 < 1024 →
      st.push_allocator_checked c = some (st.push_allocator c) ∧
      (st.push_allocator c).pop_allocator.ctx_ptr = st.ctx_ptr ∧
      (st.push_allocator c).pop_allocator.current = st.current) ∧
    (st.ctx_ptr + 2 < 1024 →
      st.push_allocator_checked AllocationContext.Arena =
        some (st.push_allocator AllocationContext.Arena) ∧
      (st.push_allocator AllocationContext.Arena).push_allocator_checked
          AllocationContext.Pool =
        some ((st.push_allocator AllocationContext.Arena).push_allocator
          AllocationContext.Pool) ∧
      ((st.push_allocator AllocationContext.Arena).push_allocator
          AllocationContext.Pool).pop_allocator.pop_allocator.ctx_ptr =
        st.ctx_ptr ∧
      ((st.push_allocator AllocationContext.Arena).push_allocator
          AllocationContext.Pool).pop_allocator.pop_allocator.current =
        st.current) := by
  constructor
  · intro h
    have hlt1 : st.ctx_ptr + 1 < USIZE := by simp only [USIZE]; omega
    have hchk : st.push_allocator_checked c = some (st.push_allocator c) := by
      unfold AllocatorManager.push_allocator_checked
      rw [if_pos h]
    have hpp : (st.push_allocator c).ctx_ptr = st.ctx_ptr + 1 := by
      rw [(push_allocator_proj st c).1]
      exact Nat.mod_eq_of_lt hlt1
    have hqq : (st.push_allocator c).pop_allocator.ctx_ptr = st.ctx_ptr := by
      rw [(pop_allocator_proj (st.push_allocator c)).2.1, hpp,
        wrap_sub_one (by omega) hlt1]
      omega
    refine ⟨hchk, hqq, ?_⟩
    rw [current_eq, current_eq, hqq,
      (pop_allocator_proj (st.push_allocator c)).1,
      (push_allocator_proj st c).2.1]
    simp only
    rw [if_neg (by omega)]
  · intro h
    have hlt1 : st.ctx_ptr + 1 < USIZE := by simp only [USIZE]; omega
    have hlt2 : st.ctx_ptr + 2 < USIZE := by simp only [USIZE]; omega
    set st1 := st.push_allocator AllocationContext.Arena with hst1
    set st2 := st1.push_allocator AllocationContext.Pool with hst2
    have h1 : st1.ctx_ptr = st.ctx_ptr + 1 := by
      rw [hst1, (push_allocator_proj st AllocationContext.Arena).1]
      exact Nat.mod_eq_of_lt hlt1
    have h2 : st2.ctx_ptr = st.ctx_ptr + 2 := by
      rw [hst2, (push_allocator_proj st1 AllocationContext.Pool).1, h1]
      exact Nat.mod_eq_of_lt hlt2
    have hchk1 : st.push_allocator_checked AllocationContext.Arena =
        some st1 := by
      unfold AllocatorManager.push_allocator_checked
      rw [if_pos (by omega)]
    have hchk2 : st1.push_allocator_checked AllocationContext.Pool =
        some st2 := by
      unfold AllocatorManager.push_allocator_checked
      rw [if_pos (by rw [h1]; omega)]
    have h3 : st2.pop_allocator.ctx_ptr = st.ctx_ptr + 1 := by
      rw [(pop_allocator_proj st2).2.1, h2, wrap_sub_one (by omega) hlt2]
      omega
    have h4 : st2.pop_allocator.pop_allocator.ctx_ptr = st.ctx_ptr := by
      rw [(pop_allocator_proj st2.pop_allocator).2.1, h3,
        wrap_sub_one (by omega) hlt1]
      omega
    refine ⟨hchk1, hchk2, h4, ?_⟩
    rw [current_eq, current_eq, h4,
      (pop_allocator_proj st2.pop_allocator).1, (pop_allocator_proj st2).1,
      hst2, (push_allocator_proj st1 AllocationContext.Pool).2.1, h1]
    simp only
    rw [if_neg (by omega), hst1,
      (push_allocator_proj st AllocationContext.Arena).2.1]
    simp only
    rw [if_neg (by omega)]

/-- C6 witness: at the initial state (top index 0, context `System`), both
in-bounds hypotheses hold; the checked pushes succeed, and the single and
nested round trips restore index 0 and current context `System`. -/
theorem claim_C6_witness :
    (ALLOCATOR_INIT.ctx_ptr + 1 < 1024 ∧ ALLOCATOR_INIT.ctx_ptr + 2 < 1024) ∧
    (ALLOCATOR_INIT.push_allocator_checked AllocationContext.Arena =
        some (ALLOCATOR_INIT.push_allocator AllocationContext.Arena) ∧
      (ALLOCATOR_INIT.push_allocator
          AllocationContext.Arena).pop_allocator.ctx_ptr =
        ALLOCATOR_INIT.ctx_ptr ∧
      (ALLOCATOR_INIT.push_allocator
          AllocationContext.Arena).pop_allocator.current =
        ALLOCATOR_INIT.current) ∧
    (ALLOCATOR_INIT.push_allocator_checked AllocationContext.Arena =
        some (ALLOCATOR_INIT.push_allocator AllocationContext.Arena) ∧
      (ALLOCATOR_INIT.push_allocator
          AllocationContext.Arena).push_allocator_checked
          AllocationContext.Pool =
        some ((ALLOCATOR_INIT.push_allocator
            AllocationContext.Arena).push_allocator AllocationContext.Pool) ∧
      ((ALLOCATOR_INIT.push_allocator AllocationContext.Arena).push_allocator
          AllocationContext.Pool).pop_allocator.pop_allocator.ctx_ptr =
        ALLOCATOR_INIT.ctx_ptr ∧
      ((ALLOCATOR_INIT.push_allocator AllocationContext.Arena).push_allocator
          AllocationContext.Pool).pop_allocator.pop_allocator.current =
        ALLOCATOR_INIT.current) := by
  have h := claim_C6 ALLOCATOR_INIT AllocationContext.Arena
  exact ⟨⟨by decide, by decide⟩, h.1 (by decide), h.2 (by decide)⟩

/-- C8: `AllocatorManager::dealloc` is unconditionally a no-op: for every
pointer and layout (including pointers produced by the System strategy) the
whole state — context stack, top index, both bump counters, and the system
byte counter — is exactly unchanged. -/
theorem claim_C8 (ab pb : Nat) (st : AllocatorManager) (ptr size align : Nat) :
    AllocatorManager.dealloc st ptr size align = st ∧
    AllocatorManager.step ab pb st (Op.dealloc ptr size align) = st ∧
    (AllocatorManager.dealloc st ptr size align).ctx = st.ctx ∧
    (AllocatorManager.dealloc st ptr size align).ctx_ptr = st.ctx_ptr ∧
    (AllocatorManager.dealloc st ptr size align).arena_remaining =
      st.arena_remaining ∧
    (AllocatorManager.dealloc st ptr size align).pool_remaining =
      st.pool_remaining ∧
    (AllocatorManager.dealloc st ptr size align).system_allocated =
      st.system_allocated := by
  unfold AllocatorManager.dealloc
  exact ⟨rfl, step_dealloc_eq ab pb st ptr size align, rfl, rfl, rfl, rfl, rfl⟩

theorem ALLOCATOR_INIT_proj :
    ALLOCATOR_INIT.ctx_ptr = 0 ∧
      ALLOCATOR_INIT.system_allocated = 0 ∧
      ALLOCATOR_INIT.arena_remaining = ARENA_SIZE ∧
      ALLOCATOR_INIT.pool_remaining = POOL_SIZE := by
  unfold ALLOCATOR_INIT
  exact ⟨rfl, rfl, rfl, rfl⟩

/-- C7 counterexample: the claim fails as stated.  The sequence consisting
of a single `pop` is a sequence of push and pop operations, yet from the
initial state the unconditional wrapping `fetch_sub` drives the top index
to `2^64 - 1`, far outside `[0, 1023]`. -/
theorem claim_C7_counterexample :
    (AllocatorManager.run 0 0 ALLOCATOR_INIT [Op.pop]).ctx_ptr =
        USIZE - 1 ∧
      ¬ (AllocatorManager.run 0 0 ALLOCATOR_INIT [Op.pop]).ctx_ptr ≤ 1023 := by
  constructor
  · rw [run_cons, step_pop_eq, run_nil, (pop_allocator_proj ALLOCATOR_INIT).2.1,
      ALLOCATOR_INIT_proj.1]
    simp only [USIZE]
  · rw [run_cons, step_pop_eq, run_nil, (pop_allocator_proj ALLOCATOR_INIT).2.1,
      ALLOCATOR_INIT_proj.1]
    simp only [USIZE]
    omega

/-- C7 (amended): for every operation sequence that is well nested (no
prefix has more pops than pushes) and bounded (pushes never exceed pops by
more than 1023), the top index after every prefix stays within `[0, 1023]`,
and the slot written by every push (`index + 1`) is within the 1024-entry
array; hence every slot access by push, pop, and the dispatcher's
current-context read is in bounds. -/
theorem claim_C7 (ab pb : Nat) (ops : List Op) (hb : Balanced ops) :
    ∀ n, n ≤ ops.length →
      (AllocatorManager.run ab pb ALLOCATOR_INIT (ops.take n)).ctx_ptr ≤ 1023 ∧
      (∀ c rest, ops.drop n = Op.push c :: rest →
        (AllocatorManager.run ab pb ALLOCATOR_INIT (ops.take n)).ctx_ptr + 1 ≤
          1023) := by
  intro n hn
  have hrun : (AllocatorManager.run ab pb ALLOCATOR_INIT (ops.take n)).ctx_ptr =
      pushCount (ops.take n) - popCount (ops.take n) := by
    have := run_ctx_ptr_balanced (ops.take n) ab pb ALLOCATOR_INIT
      (by rw [ALLOCATOR_INIT_proj.1]; omega)
      (by
        intro m hm
        rw [List.take_take, ALLOCATOR_INIT_proj.1]
        have := hb (min m n) (le_trans (Nat.min_le_right m n) hn)
        omega)
    rw [this, ALLOCATOR_INIT_proj.1]
    omega
  have hbn := hb n hn
  refine ⟨by rw [hrun]; omega, ?_⟩
  intro c rest hdrop
  have hlt : n < ops.length := by
    by_contra hge
    rw [List.drop_eq_nil_of_le (by omega)] at hdrop
    exact List.noConfusion hdrop
  have htk : ops.take (n + 1) = ops.take n ++ [Op.push c] := by
    rw [List.take_add ops n 1, hdrop]
    rfl
  have hbn1 := hb (n + 1) (by omega)
  rw [htk, pushCount_append, popCount_append] at hbn1
  simp only [pushCount, popCount] at hbn1
  rw [hrun]
  omega

/-- C7 witness: the nested sequence push Arena, push Pool, pop, pop (with an
interleaved allocation) is balanced; all its prefixes keep the index in
bounds and each push writes within the array. -/
theorem claim_C7_witness :
    Balanced [Op.push AllocationContext.Arena, Op.push AllocationContext.Pool,
        Op.alloc 16 8 none, Op.pop, Op.pop] ∧
    (∀ n, n ≤ 5 →
      (AllocatorManager.run 0 0 ALLOCATOR_INIT
          (([Op.push AllocationContext.Arena, Op.push AllocationContext.Pool,
            Op.alloc 16 8 none, Op.pop, Op.pop]).take n)).ctx_ptr ≤ 1023) := by
  have hb : Balanced [Op.push AllocationContext.Arena,
      Op.push AllocationContext.Pool, Op.alloc 16 8 none, Op.pop, Op.pop] := by
    decide
  refine ⟨hb, ?_⟩
  intro n hn
  exact (claim_C7 0 0 [Op.push AllocationContext.Arena,
    Op.push AllocationContext.Pool, Op.alloc 16 8 none, Op.pop, Op.pop]
    hb n (by simpa using hn)).1

/-- C9: across any operation sequence neither bump backend's remaining
counter ever increases, and starting from the initial state both counters
stay at or below the 131072-byte capacity (no reclamation path exists). -/
theorem claim_C9 (ab pb : Nat) (st : AllocatorManager) (ops : List Op) :
    (AllocatorManager.run ab pb st ops).arena_remaining ≤ st.arena_remaining ∧
    (AllocatorManager.run ab pb st ops).pool_remaining ≤ st.pool_remaining ∧
    (AllocatorManager.run ab pb ALLOCATOR_INIT ops).arena_remaining ≤ 131072 ∧
    (AllocatorManager.run ab pb ALLOCATOR_INIT ops).pool_remaining ≤ 131072 := by
  have hA : ARENA_SIZE = 131072 := by norm_num [ARENA_SIZE]
  have hP : POOL_SIZE = 131072 := by norm_num [POOL_SIZE]
  refine ⟨run_arena_remaining_le ab pb ops st, run_pool_remaining_le ab pb ops st,
    ?_, ?_⟩
  · have := run_arena_remaining_le ab pb ops ALLOCATOR_INIT
    rw [ALLOCATOR_INIT_proj.2.2.1] at this
    omega
  · have := run_pool_remaining_le ab pb ops ALLOCATOR_INIT
    rw [ALLOCATOR_INIT_proj.2.2.2] at this
    omega

theorem info_proj (st : AllocatorManager) :
    st.info.system_allocated = st.system_allocated ∧
      st.info.arena_allocated = ARENA_SIZE - st.arena_remaining ∧
      st.info.arena_remaining = st.arena_remaining ∧
      st.info.pool_allocated = POOL_SIZE - st.pool_remaining ∧
      st.info.pool_remaining = st.pool_remaining := by
  unfold AllocatorManager.info
  exact ⟨rfl, rfl, rfl, rfl, rfl⟩

/-- C10: in every `AllocationInfo` snapshot taken in a state reachable from
the initial one, `arena_allocated + arena_remaining` and
`pool_allocated + pool_remaining` both equal exactly 131072. -/
theorem claim_C10 (ab pb : Nat) (ops : List Op) :
    (AllocatorManager.run ab pb ALLOCATOR_INIT ops).info.arena_allocated +
        (AllocatorManager.run ab pb ALLOCATOR_INIT ops).info.arena_remaining =
      131072 ∧
    (AllocatorManager.run ab pb ALLOCATOR_INIT ops).info.pool_allocated +
        (AllocatorManager.run ab pb ALLOCATOR_INIT ops).info.pool_remaining =
      131072 := by
  have hA : ARENA_SIZE = 131072 := by norm_num [ARENA_SIZE]
  have hP : POOL_SIZE = 131072 := by norm_num [POOL_SIZE]
  set st := AllocatorManager.run ab pb ALLOCATOR_INIT ops with hst
  have harena := run_arena_remaining_le ab pb ops ALLOCATOR_INIT
  rw [ALLOCATOR_INIT_proj.2.2.1, ← hst] at harena
  have hpool := run_pool_remaining_le ab pb ops ALLOCATOR_INIT
  rw [ALLOCATOR_INIT_proj.2.2.2, ← hst] at hpool
  have hi := info_proj st
  rw [hi.2.1, hi.2.2.1, hi.2.2.2.1, hi.2.2.2.2]
  omega

end AllocExp
